import Mathlib

/-!
# Verification of graphstorm distributed utility primitives

Shallow embedding of the core utility functions of the graphstorm
repository (`python/graphstorm/model/utils.py` and
`python/graphstorm/dataloading/utils.py`) together with proofs about them:

* `get_data_range` — the range assigner used by `save_embeddings`;
* `all_gather` — the padded variable-length all-gather protocol;
* `trim_data` — the distributed MIN-reduce batch-count alignment;
* `TopKList.insert` — the bounded ranked top-k list;
* `save_model` / `load_model` — the dense model checkpoint artifact;
* `remove_saved_models` — checkpoint removal with sentinel status codes.

Python integers are modelled as `Nat` (all values in play are non-negative
counts and sizes); Python exceptions are modelled with `Option`/explicit
outcome types.
-/

namespace GraphStorm

/-- `get_data_range` from `save_embeddings` in `python/graphstorm/model/utils.py`
(lines 183–188): `start = local_rank * (num_embs // world_size)`,
`end = (local_rank + 1) * (num_embs // world_size)`, except that the last rank
(`local_rank + 1 == world_size`) takes `end = num_embs` to absorb the remainder. -/
def get_data_range (local_rank world_size num_embs : Nat) : Nat × Nat :=
  let start := local_rank * (num_embs / world_size)
  let stop := (local_rank + 1) * (num_embs / world_size)
  let stop := if local_rank + 1 = world_size then num_embs else stop
  (start, stop)

/-- The partition property of the range assigner: every rank's range is a
well-formed subrange of `[0, num_embs)`, consecutive ranks' ranges are
contiguous, rank `0` starts at `0`, and every index in `[0, num_embs)` lies in
the range of exactly one rank (union is exact, ranges do not overlap). -/
def rangePartitionSpec (num_embs world_size : Nat) : Prop :=
  (∀ r, r < world_size →
      (get_data_range r world_size num_embs).1 ≤ (get_data_range r world_size num_embs).2 ∧
      (get_data_range r world_size num_embs).2 ≤ num_embs) ∧
  (∀ r, r + 1 < world_size →
      (get_data_range r world_size num_embs).2 = (get_data_range (r + 1) world_size num_embs).1) ∧
  (get_data_range 0 world_size num_embs).1 = 0 ∧
  (∀ i, i < num_embs → ∃! r, r < world_size ∧
      (get_data_range r world_size num_embs).1 ≤ i ∧
      i < (get_data_range r world_size num_embs).2)

lemma get_data_range_fst (local_rank world_size num_embs : Nat) :
    (get_data_range local_rank world_size num_embs).1 =
      local_rank * (num_embs / world_size) := rfl

lemma get_data_range_snd (local_rank world_size num_embs : Nat) :
    (get_data_range local_rank world_size num_embs).2 =
      if local_rank + 1 = world_size then num_embs
      else (local_rank + 1) * (num_embs / world_size) := rfl

/-- Two distinct ranks' ranges cannot both contain the index `i`. -/
lemma get_data_range_disjoint {num_embs world_size r₁ r₂ i : Nat}
    (hlt : r₁ < r₂) (h₂ : r₂ < world_size)
    (hi₁ : i < (get_data_range r₁ world_size num_embs).2)
    (hi₂ : (get_data_range r₂ world_size num_embs).1 ≤ i) : False := by
  rw [get_data_range_snd] at hi₁
  rw [get_data_range_fst] at hi₂
  by_cases hlast : r₁ + 1 = world_size
  · omega
  · rw [if_neg hlast] at hi₁
    have hle : (r₁ + 1) * (num_embs / world_size) ≤ r₂ * (num_embs / world_size) :=
      Nat.mul_le_mul_right _ hlt
    omega

/-- **C1.** For every `total_count ≥ 0` and `world_size ≥ 1`, the ranges assigned
by `get_data_range` over all ranks `0 ≤ rank < world_size` are contiguous,
non-overlapping, and their union is exactly `[0, total_count)`. -/
theorem get_data_range_partition (num_embs world_size : Nat) (hws : 1 ≤ world_size) :
    rangePartitionSpec num_embs world_size := by
  have hdiv : world_size * (num_embs / world_size) ≤ num_embs := Nat.mul_div_le num_embs world_size
  refine ⟨?_, ?_, ?_, ?_⟩
  · -- each range is a well-formed subrange of [0, num_embs)
    intro r hr
    rw [get_data_range_fst, get_data_range_snd]
    by_cases hlast : r + 1 = world_size
    · rw [if_pos hlast]
      have : r * (num_embs / world_size) ≤ world_size * (num_embs / world_size) :=
        Nat.mul_le_mul_right _ (Nat.le_of_lt hr)
      exact ⟨le_trans this hdiv, le_refl _⟩
    · rw [if_neg hlast]
      have h1 : r * (num_embs / world_size) ≤ (r + 1) * (num_embs / world_size) :=
        Nat.mul_le_mul_right _ (Nat.le_succ r)
      have h2 : (r + 1) * (num_embs / world_size) ≤ world_size * (num_embs / world_size) :=
        Nat.mul_le_mul_right _ hr
      exact ⟨h1, le_trans h2 hdiv⟩
  · -- contiguity of consecutive ranges
    intro r hr
    rw [get_data_range_fst, get_data_range_snd, if_neg (by omega)]
  · -- rank 0 starts at 0
    rw [get_data_range_fst, Nat.zero_mul]
  · -- every index is covered by exactly one rank
    intro i hi
    by_cases hbig : (world_size - 1) * (num_embs / world_size) ≤ i
    · -- the index falls into the last rank's range
      refine ⟨world_size - 1, ⟨by omega, ?_, ?_⟩, ?_⟩
      · rw [get_data_range_fst]; exact hbig
      · rw [get_data_range_snd, if_pos (by omega)]; exact hi
      · intro r' ⟨hr', hlo', hhi'⟩
        rcases Nat.lt_trichotomy r' (world_size - 1) with h | h | h
        · exact absurd (get_data_range_disjoint h (by omega) hhi' hbig) id
        · exact h
        · omega
    · -- the index falls into a non-last rank's range, found by division
      have hq : 0 < num_embs / world_size := by
        rcases Nat.eq_zero_or_pos (num_embs / world_size) with h | h
        · rw [h, Nat.mul_zero] at hbig; omega
        · exact h
      set q := num_embs / world_size with hqdef
      have hrq : i / q < world_size - 1 := by
        rw [Nat.div_lt_iff_lt_mul hq]
        omega
      refine ⟨i / q, ⟨by omega, ?_, ?_⟩, ?_⟩
      · rw [get_data_range_fst, ← hqdef]
        exact Nat.div_mul_le_self i q
      · rw [get_data_range_snd, if_neg (by omega), ← hqdef]
        have := Nat.lt_mul_div_succ i hq
        rw [Nat.mul_comm] at this
        exact this
      · intro r' ⟨hr', hlo', hhi'⟩
        rcases Nat.lt_trichotomy r' (i / q) with h | h | h
        · have hlo : (get_data_range (i / q) world_size num_embs).1 ≤ i := by
            rw [get_data_range_fst, ← hqdef]; exact Nat.div_mul_le_self i q
          exact absurd (get_data_range_disjoint h (by omega) hhi' hlo) id
        · exact h
        · have hhi : i < (get_data_range (i / q) world_size num_embs).2 := by
            rw [get_data_range_snd, if_neg (by omega), ← hqdef]
            have := Nat.lt_mul_div_succ i hq
            rw [Nat.mul_comm] at this
            exact this
          exact absurd (get_data_range_disjoint h hr' hhi hlo') id

/-- Witness for C1 at `total_count = 10`, `world_size = 4`. -/
theorem get_data_range_partition_witness :
    1 ≤ 4 ∧ rangePartitionSpec 10 4 :=
  ⟨by decide, get_data_range_partition 10 4 (by decide)⟩

/-! ## TopKList (`python/graphstorm/model/utils.py`, lines 432–485) -/

/-- `TopKList.insert`. The state is the pair `(top_k, toplist)`; the Python
method both returns `(insert_success, return_val)` and replaces `self.toplist`,
so the model returns `((insert_success, return_val), new_toplist)`.
Python list idioms are translated literally: `toplist[:(rank-1)]` is
`take (rank-1)`, `toplist[(rank-1):-1]` is `(drop (rank-1)).dropLast`,
`toplist[(rank-1):]` is `drop (rank-1)`, and `toplist[-1]` is `getLast?`,
with `none` modelling the `IndexError` raised on an empty list. `rank` is
documented as positive, so `Nat` subtraction `rank - 1` agrees with Python. -/
def TopKList.insert (top_k : Nat) (toplist : List α) (rank : Nat) (val : α) :
    Option ((Bool × α) × List α) :=
  if top_k ≤ rank - 1 then
    some ((false, val), toplist)
  else if toplist.length = top_k then
    match toplist.getLast? with
    | none => none
    | some last =>
        some ((true, last),
          toplist.take (rank - 1) ++ val :: (toplist.drop (rank - 1)).dropLast)
  else
    some ((true, val), toplist.take (rank - 1) ++ val :: toplist.drop (rank - 1))

/-- **C5.** `insert` with `top_k = 0`, or with `rank > top_k`, returns
`(False, val)` and leaves the list unchanged. -/
theorem TopKList.insert_reject (top_k rank : Nat) (toplist : List α) (val : α)
    (hrank : 1 ≤ rank) (hrej : top_k = 0 ∨ top_k < rank) :
    TopKList.insert top_k toplist rank val = some ((false, val), toplist) := by
  have h : top_k ≤ rank - 1 := by omega
  simp [TopKList.insert, if_pos h]

/-- Witness for C5: the spec's 4th insert `(rank = 4, "d")` with `top_k = 3`
and full list `["c", "a", "b"]` is rejected. -/
theorem TopKList.insert_reject_witness :
    1 ≤ 4 ∧ ((3 : Nat) = 0 ∨ 3 < 4) ∧
      TopKList.insert 3 ["c", "a", "b"] 4 "d" = some ((false, "d"), ["c", "a", "b"]) :=
  ⟨by decide, Or.inr (by decide),
    TopKList.insert_reject 3 4 ["c", "a", "b"] "d" (by decide) (Or.inr (by decide))⟩

/-- **C6.** `insert` into a full list (`length = top_k`) with `1 ≤ rank ≤ top_k`
splices `val` in at position `rank - 1`, shifts the elements previously at
positions `rank-1 .. top_k-2` right by one, drops the previous tail element,
returns `(True, previous_tail)`, and keeps the length at `top_k`. -/
theorem TopKList.insert_full (top_k rank : Nat) (toplist : List α) (val : α)
    (hrank : 1 ≤ rank) (hle : rank ≤ top_k) (hfull : toplist.length = top_k) :
    ∃ last, toplist.getLast? = some last ∧
      TopKList.insert top_k toplist rank val =
        some ((true, last),
          toplist.take (rank - 1) ++ val :: (toplist.drop (rank - 1)).dropLast) ∧
      (toplist.take (rank - 1) ++ val :: (toplist.drop (rank - 1)).dropLast).length = top_k ∧
      (toplist.take (rank - 1) ++ val :: (toplist.drop (rank - 1)).dropLast)[rank - 1]? =
        some val := by
  have hne : toplist ≠ [] := by
    intro h; rw [h] at hfull; simp at hfull; omega
  obtain ⟨last, hlast⟩ : ∃ last, toplist.getLast? = some last := by
    cases h : toplist.getLast? with
    | none => exact absurd (List.getLast?_eq_none_iff.1 h) hne
    | some l => exact ⟨l, rfl⟩
  have hcond : ¬ top_k ≤ rank - 1 := by omega
  have htake : (toplist.take (rank - 1)).length = rank - 1 := by
    rw [List.length_take]; omega
  refine ⟨last, hlast, ?_, ?_, ?_⟩
  · simp only [TopKList.insert, if_neg hcond, if_pos hfull, hlast]
  · simp only [List.length_append, List.length_cons, List.length_dropLast,
      List.length_drop, htake]
    omega
  · rw [List.getElem?_append_right htake.le, htake]
    simp

/-- Witness for C6: the spec's 5th insert `(rank = 1, "e")` with `top_k = 3`
and full list `["c", "a", "b"]` evicts the tail `"b"`. -/
theorem TopKList.insert_full_witness :
    1 ≤ 1 ∧ 1 ≤ 3 ∧ (["c", "a", "b"] : List String).length = 3 ∧
      (∃ last, (["c", "a", "b"] : List String).getLast? = some last ∧
        TopKList.insert 3 ["c", "a", "b"] 1 "e" =
          some ((true, last),
            (["c", "a", "b"] : List String).take 0 ++
              "e" :: ((["c", "a", "b"] : List String).drop 0).dropLast) ∧
        ((["c", "a", "b"] : List String).take 0 ++
            "e" :: ((["c", "a", "b"] : List String).drop 0).dropLast).length = 3 ∧
        ((["c", "a", "b"] : List String).take 0 ++
            "e" :: ((["c", "a", "b"] : List String).drop 0).dropLast)[0]? = some "e") :=
  ⟨by decide, by decide, by rfl,
    TopKList.insert_full 3 1 ["c", "a", "b"] "e" (by decide) (by decide) (by rfl)⟩

/-- **C7.** `insert` into a non-full list with `1 ≤ rank ≤ top_k` splices `val`
in at position `rank - 1` (shifting the existing tail right by one), grows the
list by exactly one, and returns `(True, val)`. -/
theorem TopKList.insert_notFull (top_k rank : Nat) (toplist : List α) (val : α)
    (hrank : 1 ≤ rank) (hle : rank ≤ top_k) (hlen : toplist.length < top_k) :
    TopKList.insert top_k toplist rank val =
      some ((true, val), toplist.take (rank - 1) ++ val :: toplist.drop (rank - 1)) ∧
    (toplist.take (rank - 1) ++ val :: toplist.drop (rank - 1)).length =
      toplist.length + 1 := by
  have hcond : ¬ top_k ≤ rank - 1 := by omega
  have hfull : ¬ toplist.length = top_k := by omega
  constructor
  · simp only [TopKList.insert, if_neg hcond, if_neg hfull]
  · simp only [List.length_append, List.length_cons, List.length_take,
      List.length_drop]
    omega

/-- Witness for C7: the spec's 2nd insert `(rank = 2, "b")` with `top_k = 3`
into the non-full list `["a"]`. -/
theorem TopKList.insert_notFull_witness :
    1 ≤ 2 ∧ 2 ≤ 3 ∧ (["a"] : List String).length < 3 ∧
      (TopKList.insert 3 ["a"] 2 "b" =
        some ((true, "b"),
          (["a"] : List String).take 1 ++ "b" :: (["a"] : List String).drop 1) ∧
      ((["a"] : List String).take 1 ++ "b" :: (["a"] : List String).drop 1).length =
        (["a"] : List String).length + 1) :=
  ⟨by decide, by decide, by decide,
    TopKList.insert_notFull 3 2 ["a"] "b" (by decide) (by decide) (by decide)⟩

/-! ## trim_data (`python/graphstorm/dataloading/utils.py`, lines 21–52) -/

/-- `trim_data` after the collective: `min_num_nodes` is the result of
`all_reduce(num_nodes, MIN)`; the node-id tensor is truncated to the first
`min_num_nodes` entries when it is longer (`nids[:min_num_nodes]`),
otherwise returned unchanged. Device placement and the CUDA assertion are
not modelled. -/
def trim_data (nids : List α) (min_num_nodes : Nat) : List α :=
  if min_num_nodes < nids.length then nids.take min_num_nodes else nids

/-- The blocking `all_reduce(·, ReduceOp.MIN)` over every worker's local
count: each worker receives the minimum of all counts. -/
def allReduceMin (counts : List Nat) : Option Nat := counts.min?

/-- The whole distributed round: every worker contributes its local node-id
list, the counts are MIN-reduced, and every worker trims with the reduced
minimum. -/
def trim_data_all (nidsAll : List (List α)) : List (List α) :=
  match allReduceMin (nidsAll.map List.length) with
  | none => nidsAll
  | some m => nidsAll.map (fun nids => trim_data nids m)

lemma trim_data_eq_take (nids : List α) (m : Nat) (h : m ≤ nids.length) :
    trim_data nids m = nids.take m := by
  unfold trim_data
  by_cases hlt : m < nids.length
  · rw [if_pos hlt]
  · rw [if_neg hlt, List.take_of_length_le (by omega)]

/-- **C4.** With at least one worker, the MIN-reduce yields the global minimum
`m` of the local counts, and every worker's `trim_data` result is the first
`m` entries of its local list; its length is exactly `m`, and
`m ≤ local_count` on every worker. -/
theorem trim_data_all_global_min (nidsAll : List (List α)) (hne : nidsAll ≠ []) :
    ∃ m, allReduceMin (nidsAll.map List.length) = some m ∧
      ∀ i (hi : i < nidsAll.length),
        m ≤ nidsAll[i].length ∧
        (trim_data_all nidsAll)[i]? = some (nidsAll[i].take m) ∧
        (nidsAll[i].take m).length = m := by
  have hne' : nidsAll.map List.length ≠ [] := by
    simpa using hne
  obtain ⟨m, hm⟩ : ∃ m, (nidsAll.map List.length).min? = some m := by
    cases h : (nidsAll.map List.length).min? with
    | none => exact absurd (List.min?_eq_none_iff.1 h) hne'
    | some m => exact ⟨m, rfl⟩
  obtain ⟨-, hmle⟩ := List.min?_eq_some_iff'.1 hm
  refine ⟨m, hm, fun i hi => ?_⟩
  have hmem : nidsAll[i].length ∈ nidsAll.map List.length :=
    List.mem_map_of_mem List.length (List.getElem_mem hi)
  have hle : m ≤ nidsAll[i].length := hmle _ hmem
  refine ⟨hle, ?_, ?_⟩
  · unfold trim_data_all allReduceMin
    rw [hm]
    rw [List.getElem?_map, List.getElem?_eq_getElem hi]
    simp only [Option.map_some']
    rw [trim_data_eq_take _ _ hle]
  · rw [List.length_take]; omega

/-- Witness for C4 at the spec's example counts `[10, 7, 9]`. -/
theorem trim_data_all_global_min_witness :
    (([List.range 10, List.range 7, List.range 9] : List (List Nat)) ≠ []) ∧
      (∃ m, allReduceMin (([List.range 10, List.range 7, List.range 9] :
          List (List Nat)).map List.length) = some m ∧
        ∀ i (hi : i < ([List.range 10, List.range 7, List.range 9] :
            List (List Nat)).length),
          m ≤ ([List.range 10, List.range 7, List.range 9] :
              List (List Nat))[i].length ∧
          (trim_data_all ([List.range 10, List.range 7, List.range 9] :
              List (List Nat)))[i]? =
            some (([List.range 10, List.range 7, List.range 9] :
              List (List Nat))[i].take m) ∧
          (([List.range 10, List.range 7, List.range 9] :
              List (List Nat))[i].take m).length = m) :=
  ⟨by decide,
    trim_data_all_global_min [List.range 10, List.range 7, List.range 9] (by decide)⟩

/-! ## save_model / load_model (`python/graphstorm/model/utils.py`,
lines 44–70 and 218–256) -/

/-- `save_model`: builds the `model_states` dict, adding the `'gnn'`,
`'embed'`, `'decoder'` keys only for the components that are provided
(`is not None`, modelled by `Option`; all provided components are taken to
be `nn.Module`s), and writes it as the `model.bin` artifact. The artifact
is modelled as the association list of its keys, `σ` being the state-dict
type. -/
def save_model (gnn_model embed_layer decoder : Option σ) : List (String × σ) :=
  (match gnn_model with | some s => [("gnn", s)] | none => []) ++
  (match embed_layer with | some s => [("embed", s)] | none => []) ++
  (match decoder with | some s => [("decoder", s)] | none => [])

/-- One slot of `load_model`: `if key in checkpoint and model is not None:
model.load_state_dict(checkpoint[key])`. Returns the slot's state after the
call (the `DistributedDataParallel` unwrapping is the identity on the
underlying state). -/
def loadSlot (checkpoint : List (String × σ)) (key : String) (model : Option σ) :
    Option σ :=
  match checkpoint.lookup key, model with
  | some s, some _ => some s
  | _, m => m

/-- `load_model`: loads `checkpoint['gnn']`, `checkpoint['embed']`,
`checkpoint['decoder']` into the provided slots, each only when the key is
present and the slot is provided; returns the three slots' states after the
call. -/
def load_model (checkpoint : List (String × σ)) (gnn_model embed_layer decoder : Option σ) :
    Option σ × Option σ × Option σ :=
  (loadSlot checkpoint "gnn" gnn_model,
   loadSlot checkpoint "embed" embed_layer,
   loadSlot checkpoint "decoder" decoder)

/-- **C8.** Saving with only `gnn` and `decoder` populated writes an artifact
with no `embed` key; loading that artifact with all three slots provided
restores `gnn` and `decoder` exactly and leaves the provided `embed` slot's
state untouched. -/
theorem save_load_roundtrip_frame (g d g₀ e₀ d₀ : σ) :
    (save_model (some g) none (some d)).lookup "embed" = none ∧
    load_model (save_model (some g) none (some d)) (some g₀) (some e₀) (some d₀) =
      (some g, some e₀, some d) := by
  constructor
  · simp [save_model, List.lookup]
  · simp [save_model, load_model, loadSlot, List.lookup]

/-! ## remove_saved_models (`python/graphstorm/model/utils.py`, lines 319–343) -/

/-- What a call to `remove_saved_models` does: either the
`assert os.path.exists(model_path)` fires, or the function returns a status
code. -/
inductive RemoveOutcome
  | assertionError
  | status (code : Int)
deriving DecidableEq

/-- Observable behaviour of one `remove_saved_models` call: its outcome,
whether `shutil.rmtree` was invoked at all, and whether the `WARNING`
diagnostic was printed. -/
structure RemoveResult where
  outcome : RemoveOutcome
  attemptedDelete : Bool
  warned : Bool
deriving DecidableEq

/-- `remove_saved_models`: asserts that the path exists, then deletes it
recursively with `shutil.rmtree`; an `OSError` raised by the deletion is
caught locally, a warning is printed, and `-1` is returned; on success `0`
is returned. The filesystem is abstracted by two booleans: whether the path
exists, and whether `shutil.rmtree` raises `OSError`. -/
def remove_saved_models (path_exists rmtree_raises : Bool) : RemoveResult :=
  if path_exists = false then
    { outcome := .assertionError, attemptedDelete := false, warned := false }
  else if rmtree_raises then
    { outcome := .status (-1), attemptedDelete := true, warned := true }
  else
    { outcome := .status 0, attemptedDelete := true, warned := false }

/-- **C9.** For an existing path, removal returns status `0` when the
recursive deletion succeeds; on a filesystem error it catches the error
(outcome is a status, not a raise), prints the diagnostic, and returns the
sentinel `-1`. -/
theorem remove_saved_models_status :
    remove_saved_models true false =
      { outcome := .status 0, attemptedDelete := true, warned := false } ∧
    remove_saved_models true true =
      { outcome := .status (-1), attemptedDelete := true, warned := true } := by
  exact ⟨rfl, rfl⟩

/-- **C10.** For a path that does not exist, `remove_saved_models` raises the
assertion before attempting any deletion, and in particular does not return a
status code. -/
theorem remove_saved_models_missing_path (rmtree_raises : Bool) :
    (remove_saved_models false rmtree_raises).outcome = .assertionError ∧
    (remove_saved_models false rmtree_raises).attemptedDelete = false := by
  cases rmtree_raises <;> exact ⟨rfl, rfl⟩

/-! ## The padded all-gather (`python/graphstorm/model/utils.py`, lines 380–430) -/

/-- An N-dimensional tensor, flattened to a matrix over its last dimension:
`shape` is the ordered list of dimension sizes, and `rows` holds one
last-dimension vector per combination of leading indices. The element type
`α` plays the role of the dtype (all workers pass tensors of one dtype). -/
structure PyTensor (α : Type) where
  shape : List Nat
  rows : List (List α)
deriving DecidableEq

/-- The size of the last dimension, `tensor.shape[-1]`. -/
def PyTensor.lastDim (t : PyTensor α) : Nat := t.shape.getLastD 0

/-- Well-formedness of the flattened representation: one row per combination
of leading indices, every row of the last dimension's length. -/
def PyTensor.wf (t : PyTensor α) : Prop :=
  t.rows.length = (t.shape.dropLast).prod ∧ ∀ r ∈ t.rows, r.length = t.lastDim

/-- Line 403: `local_size = th.LongTensor([tensor.shape[1]])` — the size a
worker reports in the first round of the protocol is dimension `1` of its
shape; on a tensor of rank < 2 this raises `IndexError`, modelled by
`none`. -/
def reportedSize (t : PyTensor α) : Option Nat := t.shape[1]?

/-- `th.cat((tensor, padding), dim=-1)` where `padding` has last-dimension
size `k` and `filler` stands for its uninitialized contents. -/
def padLast (t : PyTensor α) (k : Nat) (filler : α) : PyTensor α :=
  { shape := t.shape.dropLast ++ [t.lastDim + k],
    rows := t.rows.map (fun r => r ++ List.replicate k filler) }

/-- `tensr[..., :size]` — truncation along the last dimension; Python slicing
clamps to the available length. -/
def truncLast (t : PyTensor α) (size : Nat) : PyTensor α :=
  { shape := t.shape.dropLast ++ [min size t.lastDim],
    rows := t.rows.map (List.take size) }

/-- All shapes in the list are equal. -/
def allSameShape (shapes : List (List Nat)) : Bool :=
  match shapes with
  | [] => true
  | s :: rest => rest.all (· == s)

/-- The underlying `dist.all_gather` fixed-shape collective: every worker
contributes one tensor, with preallocated receive buffers of the given
shapes. It is well-defined only when all contributed tensors share one
shape that also matches every receive buffer (otherwise the job
deadlocks/aborts, modelled by `none`); on success every worker receives
all workers' tensors in rank order. -/
def distAllGather (bufferShapes : List (List Nat)) (inputs : List (PyTensor α)) :
    Option (List (PyTensor α)) :=
  if allSameShape (inputs.map PyTensor.shape ++ bufferShapes) then some inputs else none

/-- `all_gather` (lines 380–430), as a function of the whole group's inputs:
`inputs[r]` is the tensor rank `r` passes in and `filler` stands for the
uninitialized contents of padding buffers. The result is the list every
worker returns; `none` models a raised `IndexError` or an aborted/deadlocked
collective. With `world_size == 1` the input is returned immediately,
skipping both collective rounds. Each worker pads its tensor along the last
dimension by `max_size - local_size` when `local_size != max_size`, where
`local_size` is its reported `tensor.shape[1]`; each receive buffer has the
worker's shape with the last dimension replaced by `max_size`; finally every
received tensor `i` is truncated back to `size_list[i]`. -/
def all_gather (inputs : List (PyTensor α)) (filler : α) : Option (List (PyTensor α)) :=
  if inputs.length = 1 then some inputs
  else do
    let size_list ← inputs.mapM reportedSize
    let max_size := size_list.foldr max 0
    let padded := inputs.map (fun t =>
      let local_size := t.shape.getD 1 0
      if local_size ≠ max_size then padLast t (max_size - local_size) filler else t)
    let bufferShapes := inputs.map (fun t => t.shape.dropLast ++ [max_size])
    let tensor_list ← distAllGather bufferShapes padded
    some ((size_list.zip tensor_list).map (fun p => truncLast p.2 p.1))

/-- A well-formed rank-3 tensor of shape `[2, 3, 4]`. -/
def cube234 : PyTensor Nat :=
  { shape := [2, 3, 4], rows := List.replicate 6 (List.range 4) }

/-- **C3 (divergence at the failing input).** The first protocol round reports
`tensor.shape[1]`, not the last-dimension size: on the well-formed rank-3
tensor of shape `[2, 3, 4]` the code reports `3` while the last dimension
has size `4`. -/
theorem reportedSize_is_dim1_not_lastDim :
    cube234.wf ∧ reportedSize cube234 = some 3 ∧ cube234.lastDim = 4 ∧ (3 : Nat) ≠ 4 := by
  refine ⟨⟨by decide, ?_⟩, by decide, by decide, by decide⟩
  decide

/-- Worker 0's tensor: rank 3, shape `[1, 1, 2]`. -/
def gatherInputA : PyTensor Nat := { shape := [1, 1, 2], rows := [[10, 11]] }

/-- Worker 1's tensor: rank 3, shape `[1, 1, 1]` — same rank and dtype as
`gatherInputA`, differing only in the last dimension's size. -/
def gatherInputB : PyTensor Nat := { shape := [1, 1, 1], rows := [[20]] }

/-- **C2 (divergence at the failing input).** For the two-worker family of
well-formed rank-3 tensors of shapes `[1, 1, 2]` and `[1, 1, 1]` — same rank
and dtype, differing only in their last dimension — both workers report
`shape[1] = 1`, so no padding happens and the second fixed-shape collective
is invoked on mismatched shapes: the protocol aborts (`none`) instead of
returning each worker's original tensor. -/
theorem all_gather_rank3_aborts :
    gatherInputA.wf ∧ gatherInputB.wf ∧
    gatherInputA.shape.length = gatherInputB.shape.length ∧
    gatherInputA.shape.dropLast = gatherInputB.shape.dropLast ∧
    gatherInputA.lastDim ≠ gatherInputB.lastDim ∧
    all_gather [gatherInputA, gatherInputB] 0 = none ∧
    all_gather [gatherInputA, gatherInputB] 0 ≠ some [gatherInputA, gatherInputB] := by
  refine ⟨⟨by decide, by decide⟩, ⟨by decide, by decide⟩, by decide, by decide,
    by decide, by decide, by decide⟩

/-- Supporting evidence that the failure above is precisely the
`shape[1]` / `shape[-1]` confusion: on rank-2 tensors (where the two
coincide) the protocol round-trips exactly, here at the spec's example of
three workers with last-dimension sizes `[5, 2, 7]`. -/
lemma all_gather_rank2_example :
    all_gather
      [{ shape := [2, 5], rows := [List.range 5, List.range 5] },
       { shape := [2, 2], rows := [[90, 91], [92, 93]] },
       { shape := [2, 7], rows := [List.range 7, List.range 7] }] 0 =
    some
      [{ shape := [2, 5], rows := [List.range 5, List.range 5] },
       { shape := [2, 2], rows := [[90, 91], [92, 93]] },
       { shape := [2, 7], rows := [List.range 7, List.range 7] }] := by
  decide

/-- Supporting evidence: with `world_size == 1` the input is returned
unchanged, skipping both collective rounds. -/
lemma all_gather_single (t : PyTensor α) (filler : α) :
    all_gather [t] filler = some [t] := by
  simp [all_gather]

end GraphStorm
